import Mathlib

/-!
Shallow embedding of the go-astits MPEG-TS demultiplexer core (packet
framing, reassembly engine, PSI/PES payload parsing) together with proofs
about it.  Go functions become Lean functions over `Nat`-valued bytes;
machine-integer overflow is made explicit with `% 2^w`; fallible code
returns `Except`.  Table-body parsers (PAT/PMT/SDT/NIT/EIT/TOT bodies and
descriptors) are external collaborators of the core and are injected as a
function parameter where the core dispatches to them.
-/

namespace Astits

/-- Error kinds surfaced by the embedded parsers.  Go wraps errors with
context strings; here the wrapping for packet building is the explicit
`buildingPacketFailed` constructor and other context wrapping is dropped. -/
inductive TSError where
  | noBytesLeft : TSError
  | packetMustStartWithASyncByte : TSError
  | noMorePackets : TSError
  | onlyOneSyncByte : TSError
  | crcMismatch (stored computed : Nat) : TSError
  | dataEndBeforeStart : TSError
  | buildingPacketFailed (e : TSError) : TSError
  | customParseFailed : TSError
  deriving DecidableEq

/-- Model of astikit.BytesIterator: a byte buffer plus a cursor. -/
structure BytesIterator where
  bs : List Nat
  offset : Nat
  deriving DecidableEq

namespace BytesIterator

/-- astikit NextByte: one byte at the cursor, or ErrNoBytesLeft. -/
def nextByte (i : BytesIterator) : Except TSError (Nat × BytesIterator) :=
  if i.bs.length < i.offset + 1 then .error .noBytesLeft
  else .ok ((i.bs.drop i.offset).headD 0, ⟨i.bs, i.offset + 1⟩)

/-- astikit NextBytesNoCopy: n bytes at the cursor, or ErrNoBytesLeft. -/
def nextBytesNoCopy (i : BytesIterator) (n : Nat) : Except TSError (List Nat × BytesIterator) :=
  if i.bs.length < i.offset + n then .error .noBytesLeft
  else .ok ((i.bs.drop i.offset).take n, ⟨i.bs, i.offset + n⟩)

/-- astikit Seek: place the cursor at an absolute offset. -/
def seek (i : BytesIterator) (o : Nat) : BytesIterator := ⟨i.bs, o⟩

/-- astikit Skip: advance the cursor. -/
def skip (i : BytesIterator) (n : Nat) : BytesIterator := ⟨i.bs, i.offset + n⟩

/-- astikit HasBytesLeft. -/
def hasBytesLeft (i : BytesIterator) : Bool := i.offset < i.bs.length

/-- astikit Len. -/
def len (i : BytesIterator) : Nat := i.bs.length

end BytesIterator

/-! ## Clock reference codec (clock_reference.go, packet.go) -/

/-- ClockReference is a uint64 packing the 33-bit 90 kHz base above the
9-bit 27 MHz extension. -/
abbrev ClockReference := Nat

/-- newClockReference: (base << 9) | extension&0x1ff, uint64 arithmetic. -/
def newClockReference (base extension : Nat) : ClockReference :=
  ((base <<< 9) % (2 ^ 64)) ||| (extension &&& 0x1ff)

/-- ClockReference.Base: the value shifted right by 9. -/
def ClockReference.Base (cr : ClockReference) : Nat := cr >>> 9

/-- ClockReference.Extension: the low 9 bits. -/
def ClockReference.Extension (cr : ClockReference) : Nat := cr &&& 0x1ff

/-- writePCR packs extension | base<<15 | 0x7e<<8 into a uint64 and emits
its low 6 bytes big-endian (bb[2:] after binary.BigEndian.PutUint64). -/
def writePCRBytes (cr : ClockReference) : List Nat :=
  let v : Nat := (cr.Extension ||| ((cr.Base <<< 15) % (2 ^ 64))) ||| (0x7e <<< 8)
  [(v >>> 40) &&& 0xff, (v >>> 32) &&& 0xff, (v >>> 24) &&& 0xff,
   (v >>> 16) &&& 0xff, (v >>> 8) &&& 0xff, v &&& 0xff]

/-- parsePCR: 6 bytes as two overlapping big-endian uint32 reads combined
into a 48-bit value; base is the value shifted right 15, extension its low
9 bits. -/
def ClockReference.parsePCR (i : BytesIterator) : Except TSError (ClockReference × BytesIterator) := do
  let (bs, i) ← i.nextBytesNoCopy 6
  let b0 := bs.getD 0 0
  let b1 := bs.getD 1 0
  let b2 := bs.getD 2 0
  let b3 := bs.getD 3 0
  let b4 := bs.getD 4 0
  let b5 := bs.getD 5 0
  let u32a := ((b0 <<< 24) ||| (b1 <<< 16)) ||| ((b2 <<< 8) ||| b3)
  let u32b := ((b2 <<< 24) ||| (b3 <<< 16)) ||| ((b4 <<< 8) ||| b5)
  let pcr := ((u32a <<< 16) % (2 ^ 64)) ||| u32b
  return (newClockReference (pcr >>> 15) (pcr &&& 0x1ff), i)

/-! ## Packet buffer framing (packet_buffer.go) -/

/-- Sync byte 0x47. -/
def syncByte : Nat := 0x47

/-- Standard MPEG-TS packet size. -/
def MpegTsPacketSize : Nat := 188

/-- The range loop of autoDetectPacketSize: first index at or beyond 188
holding a sync byte. -/
def findSyncIndex : List Nat → Nat → Option Nat
  | [], _ => none
  | b :: rest, idx =>
    if b = syncByte ∧ MpegTsPacketSize ≤ idx then some idx
    else findSyncIndex rest (idx + 1)

/-- autoDetectPacketSize: peek 193 bytes, require a leading sync byte and
scan for the next sync byte at index at least 188; that index is the
packet size.  The rewind mechanics act on the reader and do not affect the
returned size. -/
def autoDetectPacketSize (bs : List Nat) : Except TSError Nat :=
  if bs.length < 193 then .error .noBytesLeft
  else
    let peeked := bs.take 193
    if peeked.getD 0 0 ≠ syncByte then .error .packetMustStartWithASyncByte
    else
      match findSyncIndex peeked 0 with
      | some idx => .ok idx
      | none => .error .onlyOneSyncByte

/-- packetBuffer.next, with the reader and the packet parser modelled as a
sequence of packet-size chunks and a function from chunk bytes to the
(skip, error) pair Packet.parse returns.  Each loop iteration reads the
next chunk (end of the sequence is the reader EOF, surfaced as
NoMorePackets) and parses it: on an error flagged as skippable while the
skip-error counter is below the limit the counter is incremented and the
loop rereads, otherwise the error is surfaced wrapped; on success the
counter resets to zero and the loop stops unless the packet was skipped by
the skip predicate.  The result is the accepted chunk together with the
final counter value. -/
def packetBufferNext (parseFn : List Nat → Bool × Option TSError) (skipErrLimit : Nat) :
    List (List Nat) → Nat → Except TSError (List Nat × Nat)
  | [], _ => .error .noMorePackets
  | bs :: rest, skipErrCounter =>
    match parseFn bs with
    | (skip, some e) =>
      if skip ∧ skipErrCounter < skipErrLimit then
        packetBufferNext parseFn skipErrLimit rest (skipErrCounter + 1)
      else .error (.buildingPacketFailed e)
    | (skip, none) =>
      if skip then packetBufferNext parseFn skipErrLimit rest 0
      else .ok (bs, 0)

/-! ## Program map (program_map.go) and PAT feedback (demuxer.go) -/

/-- One PAT entry: a program number and the PID its PMT travels on. -/
structure PATProgram where
  ProgramMapID : Nat
  ProgramNumber : Nat
  deriving DecidableEq

/-- PAT body: programs plus the transport stream id. -/
structure PATData where
  Programs : List PATProgram
  TransportStreamID : Nat
  deriving DecidableEq

/-- programMap as an association list from PMT PID to program number
(modelling the Go map). -/
abbrev ProgramMapT := List (Nat × Nat)

/-- programMap.setUnlocked: map assignment m.p[pid] = number. -/
def pmSetUnlocked : ProgramMapT → Nat → Nat → ProgramMapT
  | [], pid, number => [(pid, number)]
  | (q, m) :: rest, pid, number =>
    if q = pid then (pid, number) :: rest else (q, m) :: pmSetUnlocked rest pid number

/-- programMap.existsUnlocked: key lookup. -/
def pmExistsUnlocked (m : ProgramMapT) (pid : Nat) : Bool :=
  m.any (fun pr => pr.1 = pid)

/-! ## Demuxer data records -/

/-- Placeholder for table bodies whose parsers are outside the core (the
spec lists the table-body parsers as external collaborators). -/
structure PMTData where
  dummyField : Unit
  deriving DecidableEq

/-- Placeholder table body, see PMTData. -/
structure SDTData where
  dummyField : Unit
  deriving DecidableEq

/-- Placeholder table body, see PMTData. -/
structure NITData where
  dummyField : Unit
  deriving DecidableEq

/-- Placeholder table body, see PMTData. -/
structure EITData where
  dummyField : Unit
  deriving DecidableEq

/-- Placeholder table body, see PMTData. -/
structure TOTData where
  dummyField : Unit
  deriving DecidableEq

/-- parsePTSOrDTS: 33 bits spread over 5 bytes with marker bits. -/
def parsePTSOrDTS (i : BytesIterator) : Except TSError (ClockReference × BytesIterator) := do
  let (bs, i) ← i.nextBytesNoCopy 5
  let b0 := bs.getD 0 0
  let b1 := bs.getD 1 0
  let b2 := bs.getD 2 0
  let b3 := bs.getD 3 0
  let b4 := bs.getD 4 0
  return (newClockReference
    (((((b0 >>> 1) &&& 0x7) <<< 30) ||| (b1 <<< 22)) |||
      ((((b2 >>> 1) &&& 0x7f) <<< 15) ||| ((b3 <<< 7) ||| ((b4 >>> 1) &&& 0x7f)))) 0, i)

/-! ## Packet codec (packet.go) -/

/-- Packet header fields (3 bytes after the sync byte). -/
structure PacketHeader where
  ContinuityCounter : Nat
  HasAdaptationField : Bool
  HasPayload : Bool
  PayloadUnitStartIndicator : Bool
  PID : Nat
  TransportErrorIndicator : Bool
  TransportPriority : Bool
  TransportScramblingControl : Nat
  deriving DecidableEq

/-- Adaptation extension field. -/
structure PacketAdaptationExtensionField where
  DTSNextAccessUnit : ClockReference
  PiecewiseRate : Nat
  LegalTimeWindowOffset : Nat
  LegalTimeWindowIsValid : Bool
  HasLegalTimeWindow : Bool
  HasPiecewiseRate : Bool
  HasSeamlessSplice : Bool
  Length : Nat
  SpliceType : Nat
  deriving DecidableEq

/-- Adaptation field. -/
structure PacketAdaptationField where
  AdaptationExtensionField : Option PacketAdaptationExtensionField
  OPCR : ClockReference
  PCR : ClockReference
  TransportPrivateData : List Nat
  TransportPrivateDataLength : Nat
  Length : Nat
  StuffingLength : Nat
  SpliceCountdown : Nat
  DiscontinuityIndicator : Bool
  RandomAccessIndicator : Bool
  ElementaryStreamPriorityIndicator : Bool
  HasPCR : Bool
  HasOPCR : Bool
  HasSplicingCountdown : Bool
  HasTransportPrivateData : Bool
  HasAdaptationExtensionField : Bool
  deriving DecidableEq

/-- A parsed transport packet: header, optional adaptation field and the
payload byte range. -/
structure Packet where
  Header : PacketHeader
  AdaptationField : Option PacketAdaptationField
  Payload : List Nat
  deriving DecidableEq

/-- PacketHeader.parse over the 3 header bytes. -/
def parsePacketHeader (i : BytesIterator) : Except TSError (PacketHeader × BytesIterator) := do
  let (bs, i) ← i.nextBytesNoCopy 3
  let b2 := bs.getD 2 0
  let b0 := bs.getD 0 0
  return (⟨b2 &&& 0xf,
    b2 &&& 0x20 != 0,
    b2 &&& 0x10 != 0,
    b0 &&& 0x40 != 0,
    (((b0 <<< 8) ||| bs.getD 1 0) &&& 0x1fff),
    b0 &&& 0x80 != 0,
    b0 &&& 0x20 != 0,
    (b2 >>> 6) &&& 0x3⟩, i)

/-- Go uint8 subtraction with wrap-around, used for the stuffing length. -/
def sub8 (a b : Nat) : Nat := (a % 256 + 256 - b % 256) % 256

/-- PacketAdaptationExtensionField.parse. -/
def parseAdaptationExtensionField (i : BytesIterator) :
    Except TSError (PacketAdaptationExtensionField × BytesIterator) := do
  let (length, i) ← i.nextByte
  if length > 0 then do
    let (b, i) ← i.nextByte
    let hasLegalTimeWindow := b &&& 0x80 != 0
    let hasPiecewiseRate := b &&& 0x40 != 0
    let hasSeamlessSplice := b &&& 0x20 != 0
    let (ltwValid, ltwOffset, i) ←
      if hasLegalTimeWindow then do
        let (bs, i) ← i.nextBytesNoCopy 2
        pure ((bs.getD 0 0) &&& 0x80 != 0,
          (((bs.getD 0 0) &&& 0x7f) <<< 8) ||| bs.getD 1 0, i)
      else pure (false, 0, i)
    let (piecewiseRate, i) ←
      if hasPiecewiseRate then do
        let (bs, i) ← i.nextBytesNoCopy 3
        pure (((((bs.getD 0 0) &&& 0x3f) <<< 16) ||| ((bs.getD 1 0) <<< 8)) ||| bs.getD 2 0, i)
      else pure (0, i)
    let (spliceType, dts, i) ←
      if hasSeamlessSplice then do
        let (b2, i) ← i.nextByte
        let spliceType := (b2 &&& 0xf0) >>> 4
        let i := i.seek (i.offset - 1)
        let (dts, i) ← parsePTSOrDTS i
        pure (spliceType, dts, i)
      else pure (0, (0 : ClockReference), i)
    return (⟨dts, piecewiseRate, ltwOffset, ltwValid, hasLegalTimeWindow,
      hasPiecewiseRate, hasSeamlessSplice, length, spliceType⟩, i)
  else
    return (⟨0, 0, 0, false, false, false, false, length, 0⟩, i)

/-- PacketAdaptationField.parse: length byte, then when the length is
positive the flags byte and the optional fields; the stuffing length is
the declared length minus the bytes consumed (uint8 wrap). -/
def parseAdaptationField (i : BytesIterator) :
    Except TSError (PacketAdaptationField × BytesIterator) := do
  let (length, i) ← i.nextByte
  let afStartOffset := i.offset
  if length > 0 then do
    let (b, i) ← i.nextByte
    let discontinuityIndicator := b &&& 0x80 != 0
    let randomAccessIndicator := b &&& 0x40 != 0
    let espi := b &&& 0x20 != 0
    let hasPCR := b &&& 0x10 != 0
    let hasOPCR := b &&& 0x08 != 0
    let hasSplicingCountdown := b &&& 0x04 != 0
    let hasTransportPrivateData := b &&& 0x02 != 0
    let hasAdaptationExtensionField := b &&& 0x01 != 0
    let (pcr, i) ←
      if hasPCR then ClockReference.parsePCR i
      else pure ((0 : ClockReference), i)
    let (opcr, i) ←
      if hasOPCR then ClockReference.parsePCR i
      else pure ((0 : ClockReference), i)
    let (spliceCountdown, i) ←
      if hasSplicingCountdown then i.nextByte
      else pure (0, i)
    let (tpdLength, tpd, i) ←
      if hasTransportPrivateData then do
        let (l, i) ← i.nextByte
        if l > 0 then do
          let (tpd, i) ← i.nextBytesNoCopy l
          pure (l, tpd, i)
        else pure (l, [], i)
      else pure (0, [], i)
    let (ext, i) ←
      if hasAdaptationExtensionField then do
        let (e, i) ← parseAdaptationExtensionField i
        pure (some e, i)
      else pure (none, i)
    return (⟨ext, opcr, pcr, tpd, tpdLength, length,
      sub8 length (i.offset - afStartOffset), spliceCountdown,
      discontinuityIndicator, randomAccessIndicator, espi, hasPCR, hasOPCR,
      hasSplicingCountdown, hasTransportPrivateData,
      hasAdaptationExtensionField⟩, i)
  else
    return (⟨none, 0, 0, [], 0, length, sub8 length (i.offset - afStartOffset),
      0, false, false, false, false, false, false, false, false⟩, i)

/-- Packet.payloadOffset. -/
def payloadOffset (p : Packet) (offsetStart : Nat) : Nat :=
  let offset := offsetStart + 3
  match p.AdaptationField with
  | some af => if p.Header.HasAdaptationField then offset + 1 + af.Length else offset
  | none => offset

/-- Packet.parse over one packet-size slot: check the first byte is the
sync byte, seek so the sync byte plus the remaining bytes form a 188-byte
packet, parse the header, ask the skip predicate, then parse the
adaptation field and take the payload range up to the end of the slot.
Returns the skip flag alongside the packet. -/
def packetParse (bs : List Nat) (s : Packet → Bool) : Except TSError (Bool × Packet) :=
  let i : BytesIterator := ⟨bs, 0⟩
  let b := (i.bs.drop i.offset).headD 0
  if b ≠ syncByte then .error .packetMustStartWithASyncByte
  else do
    let i := (⟨bs, 1⟩ : BytesIterator).seek (i.len - MpegTsPacketSize + 1)
    let offsetStart := i.offset
    let (header, i) ← parsePacketHeader i
    let p0 : Packet := ⟨header, none, []⟩
    if s p0 then
      return (true, p0)
    else do
      let (af, i) ←
        if header.HasAdaptationField then do
          let (af, i) ← parseAdaptationField i
          pure (some af, i)
        else pure (none, i)
      let p1 : Packet := ⟨header, af, []⟩
      if header.HasPayload then do
        let i := i.seek (payloadOffset p1 offsetStart)
        let (payload, i) ← i.nextBytesNoCopy (i.len - i.offset)
        let _ := i
        return (false, ⟨header, af, payload⟩)
      else
        return (false, p1)

/-! ## PES parser (pes.go source) -/

/-- DSM trick mode fields. -/
structure DSMTrickMode where
  FieldID : Nat
  FrequencyTruncation : Nat
  IntraSliceRefresh : Nat
  RepeatControl : Nat
  TrickModeControl : Nat
  deriving DecidableEq

/-- parseDSMTrickMode over the trick-mode byte. -/
def parseDSMTrickMode (i : Nat) : DSMTrickMode :=
  let control := i >>> 5
  if control = 0 ∨ control = 3 then
    ⟨(i >>> 3) &&& 0x3, i &&& 0x3, (i >>> 2) &&& 0x1, 0, control⟩
  else if control = 2 then
    ⟨(i >>> 3) &&& 0x3, 0, 0, 0, control⟩
  else if control = 1 ∨ control = 4 then
    ⟨0, 0, 0, i &&& 0x1f, control⟩
  else
    ⟨0, 0, 0, 0, control⟩

/-- PES optional header extension. -/
structure PESOptionalHeaderExtension where
  PrivateData : List Nat
  Extension2Data : List Nat
  HasPrivateData : Bool
  HasPackHeaderField : Bool
  HasProgramPacketSequenceCounter : Bool
  HasPSTDBuffer : Bool
  HasExtension2 : Bool
  PackField : Nat
  PacketSequenceCounter : Nat
  MPEG1OrMPEG2ID : Nat
  OriginalStuffingLength : Nat
  PSTDBufferScale : Nat
  PSTDBufferSize : Nat
  Extension2Length : Nat
  deriving DecidableEq

/-- PES optional header. -/
structure PESOptionalHeader where
  DSMTrickModeField : Option DSMTrickMode
  ExtensionField : Option PESOptionalHeaderExtension
  DTS : ClockReference
  PTS : ClockReference
  ESCR : ClockReference
  ESRate : Nat
  CRC : Nat
  AdditionalCopyInfo : Nat
  DataAlignmentIndicator : Bool
  HasAdditionalCopyInfo : Bool
  HasCRC : Bool
  HasDSMTrickMode : Bool
  HasESCR : Bool
  HasESRate : Bool
  HasExtension : Bool
  HeaderLength : Nat
  IsCopyrighted : Bool
  IsOriginal : Bool
  MarkerBits : Nat
  Priority : Bool
  PTSDTSIndicator : Nat
  ScramblingControl : Nat
  deriving DecidableEq

/-- PES header. -/
structure PESHeader where
  OptionalHeader : Option PESOptionalHeader
  PacketLength : Nat
  StreamID : Nat
  deriving DecidableEq

/-- PES data: copied payload plus the parsed header. -/
structure PESData where
  Data : List Nat
  Header : PESHeader
  deriving DecidableEq

/-- parseESCR: 42 bits spread over 6 bytes with marker bits. -/
def parseESCR (i : BytesIterator) : Except TSError (ClockReference × BytesIterator) := do
  let (bs, i) ← i.nextBytesNoCopy 6
  let b0 := bs.getD 0 0
  let b1 := bs.getD 1 0
  let b2 := bs.getD 2 0
  let b3 := bs.getD 3 0
  let b4 := bs.getD 4 0
  let b5 := bs.getD 5 0
  let escr := (((((b0 >>> 3) &&& 0x7) <<< 39) ||| (((b0 &&& 0x3) <<< 37) ||| (b1 <<< 29))) |||
      ((((b2 >>> 3) <<< 24) ||| (((b2 &&& 0x3) <<< 22) ||| (b3 <<< 14))) |||
        (((b4 >>> 3) <<< 9) ||| (((b4 &&& 0x3) <<< 7) ||| (b5 >>> 1)))))
  return (newClockReference (escr >>> 9) (escr &&& 0x1ff), i)

/-- parsePESOptionalHeaderExtension. -/
def parsePESOptionalHeaderExtensionFn (i : BytesIterator) :
    Except TSError (PESOptionalHeaderExtension × BytesIterator) := do
  let (b, i) ← i.nextByte
  let hasPrivateData := b &&& 0x80 != 0
  let hasPackHeaderField := b &&& 0x40 != 0
  let hasProgramPacketSequenceCounter := b &&& 0x20 != 0
  let hasPSTDBuffer := b &&& 0x10 != 0
  let hasExtension2 := b &&& 0x1 != 0
  let (privateData, i) ←
    if hasPrivateData then i.nextBytesNoCopy 16
    else pure ([], i)
  let (packField, i) ←
    if hasPackHeaderField then do
      let (pf, i) ← i.nextByte
      pure (pf, i)
    else pure (0, i)
  let (psc, mpegID, osl, i) ←
    if hasProgramPacketSequenceCounter then do
      let (bs, i) ← i.nextBytesNoCopy 2
      pure ((bs.getD 0 0) &&& 0x7f, ((bs.getD 1 0) >>> 6) &&& 0x1, (bs.getD 1 0) &&& 0x3f, i)
    else pure (0, 0, 0, i)
  let (pstdScale, pstdSize, i) ←
    if hasPSTDBuffer then do
      let (bs, i) ← i.nextBytesNoCopy 2
      pure (((bs.getD 0 0) >>> 5) &&& 0x1,
        (((bs.getD 0 0) <<< 8) ||| bs.getD 1 0) &&& 0x1fff, i)
    else pure (0, 0, i)
  let (ext2Length, ext2Data, i) ←
    if hasExtension2 then do
      let (b2, i) ← i.nextByte
      let len := b2 &&& 0x7f
      let (bs, i) ← i.nextBytesNoCopy len
      pure (len, bs, i)
    else pure (0, [], i)
  return (⟨privateData, ext2Data, hasPrivateData, hasPackHeaderField,
    hasProgramPacketSequenceCounter, hasPSTDBuffer, hasExtension2, packField,
    psc, mpegID, osl, pstdScale, pstdSize, ext2Length⟩, i)

/-- parsePESOptionalHeader: flags, header length, then the conditional
fields in their fixed order; the returned Nat is dataStart. -/
def parsePESOptionalHeader (i : BytesIterator) :
    Except TSError (PESOptionalHeader × Nat × BytesIterator) := do
  let (bs, i) ← i.nextBytesNoCopy 3
  let b := bs.getD 0 0
  let markerBits := b >>> 6
  let scramblingControl := (b >>> 4) &&& 0x3
  let priority := b &&& 0x8 != 0
  let dataAlignmentIndicator := b &&& 0x4 != 0
  let isCopyrighted := b &&& 0x2 != 0
  let isOriginal := b &&& 0x1 != 0
  let b1 := bs.getD 1 0
  let ptsdtsIndicator := (b1 >>> 6) &&& 0x3
  let hasESCR := b1 &&& 0x20 != 0
  let hasESRate := b1 &&& 0x10 != 0
  let hasDSMTrickMode := b1 &&& 0x8 != 0
  let hasAdditionalCopyInfo := b1 &&& 0x4 != 0
  let hasCRC := b1 &&& 0x2 != 0
  let hasExtension := b1 &&& 0x1 != 0
  let headerLength := bs.getD 2 0
  let dataStart := i.offset + headerLength
  let (pts, dts, i) ←
    if ptsdtsIndicator = 2 then do
      let (pts, i) ← parsePTSOrDTS i
      pure (pts, (0 : ClockReference), i)
    else if ptsdtsIndicator = 3 then do
      let (pts, i) ← parsePTSOrDTS i
      let (dts, i) ← parsePTSOrDTS i
      pure (pts, dts, i)
    else pure ((0 : ClockReference), (0 : ClockReference), i)
  let (escr, i) ←
    if hasESCR then parseESCR i
    else pure ((0 : ClockReference), i)
  let (esRate, i) ←
    if hasESRate then do
      let (bs, i) ← i.nextBytesNoCopy 3
      pure (((((bs.getD 0 0) &&& 0x7f) <<< 15) ||| ((bs.getD 1 0) <<< 7)) |||
        ((bs.getD 2 0) >>> 1), i)
    else pure (0, i)
  let (trick, i) ←
    if hasDSMTrickMode then do
      let (b2, i) ← i.nextByte
      pure (some (parseDSMTrickMode b2), i)
    else pure (none, i)
  let (aci, i) ←
    if hasAdditionalCopyInfo then do
      let (b2, i) ← i.nextByte
      pure (b2 &&& 0x7f, i)
    else pure (0, i)
  let (crc, i) ←
    if hasCRC then do
      let (bs, i) ← i.nextBytesNoCopy 2
      pure ((((bs.getD 0 0) <<< 8) ||| bs.getD 1 0), i)
    else pure (0, i)
  let (ext, i) ←
    if hasExtension then do
      let (e, i) ← parsePESOptionalHeaderExtensionFn i
      pure (some e, i)
    else pure (none, i)
  return (⟨trick, ext, dts, pts, escr, esRate, crc, aci, dataAlignmentIndicator,
    hasAdditionalCopyInfo, hasCRC, hasDSMTrickMode, hasESCR, hasESRate,
    hasExtension, headerLength, isCopyrighted, isOriginal, markerBits, priority,
    ptsdtsIndicator, scramblingControl⟩, dataStart, i)

/-- hasPESOptionalHeader: all stream ids except padding (0xbe) and
private-stream-2 (0xbf). -/
def hasPESOptionalHeader (streamID : Nat) : Bool :=
  streamID >>> 1 != 0b1011111

/-- parsePESHeader: stream id, packet length, data end, then the optional
header; returns dataStart and dataEnd. -/
def parsePESHeader (i : BytesIterator) :
    Except TSError (PESHeader × Nat × Nat × BytesIterator) := do
  let (bs, i) ← i.nextBytesNoCopy 3
  let streamID := bs.getD 0 0
  let packetLength := ((bs.getD 1 0) <<< 8) ||| bs.getD 2 0
  let dataEnd := if packetLength > 0 then i.offset + packetLength else i.len
  if hasPESOptionalHeader streamID then do
    let (oh, dataStart, i) ← parsePESOptionalHeader i
    return (⟨some oh, packetLength, streamID⟩, dataStart, dataEnd, i)
  else
    return (⟨none, packetLength, streamID⟩, i.offset, dataEnd, i)

/-- parsePESData: skip the 3 start-code bytes, parse the header, validate
data end against data start and extract the payload bytes. -/
def parsePESData (i : BytesIterator) : Except TSError (PESData × BytesIterator) := do
  let i := i.seek 3
  let (h, dataStart, dataEnd, i) ← parsePESHeader i
  if dataEnd < dataStart then
    .error .dataEndBeforeStart
  else do
    let i := i.seek dataStart
    let (data, i) ← i.nextBytesNoCopy (dataEnd - dataStart)
    return (⟨data, h⟩, i)

/-- DemuxerData: one output record (data.go source). -/
structure DemuxerData where
  EIT : Option EITData
  NIT : Option NITData
  PAT : Option PATData
  PES : Option PESData
  PMT : Option PMTData
  SDT : Option SDTData
  TOT : Option TOTData
  AdaptationField : Option PacketAdaptationField
  internalData : Option (List Nat)
  PID : Nat
  deriving DecidableEq

/-- The empty DemuxerData record. -/
def emptyDemuxerData : DemuxerData :=
  ⟨none, none, none, none, none, none, none, none, none, 0⟩

/-- C9: the updateData loop over parsed records and their PAT programs;
only entries with program number > 0 reach setUnlocked. -/
def updateProgramMap (ds : List DemuxerData) (pm : ProgramMapT) : ProgramMapT :=
  ds.foldl
    (fun acc v =>
      match v.PAT with
      | some pat =>
        pat.Programs.foldl
          (fun a pgm =>
            if pgm.ProgramNumber > 0 then pmSetUnlocked a pgm.ProgramMapID pgm.ProgramNumber
            else a)
          acc
      | none => acc)
    pm


/-! ## Reassembly engine (packet_pool.go, packet_list.go) -/

/-- PID of the Program Association Table. -/
def PIDPAT : Nat := 0

/-- PID of the Conditional Access Table. -/
def PIDCAT : Nat := 1

/-- PSITableID.isUnknown: true off the known-id list and the EIT range. -/
def isUnknownTableID (t : Nat) : Bool :=
  !(t == 0x4a || t == 0x7e || t == 0x40 || t == 0x41 || t == 0xff || t == 0x00 ||
    t == 0x02 || t == 0x71 || t == 0x42 || t == 0x46 || t == 0x7f || t == 0x72 ||
    t == 0x70 || t == 0x73 || (0x4e ≤ t && t ≤ 0x6f))

/-- shouldStopPSIParsing: the null table id or an unknown one. -/
def shouldStopPSIParsing (tableID : Nat) : Bool :=
  tableID == 0xff || isUnknownTableID tableID

/-- The section loop of isPSIComplete: read a table id, stop on a
stop-id, otherwise skip the 12-bit section length; at the end the
concatenated length must cover the cursor.  The loop advances the cursor
by at least 3 bytes per iteration, so any fuel above the buffer length
makes the fuel-out branch unreachable. -/
def psiCompleteLoop (bs : List Nat) : Nat → Nat → Bool
  | 0, _ => false
  | fuel + 1, offset =>
    if offset < bs.length then
      let b := (bs.drop offset).headD 0
      if shouldStopPSIParsing b then
        decide (offset + 1 ≤ bs.length)
      else if bs.length < offset + 1 + 2 then false
      else
        let b1 := (bs.drop (offset + 1)).headD 0
        let b2 := (bs.drop (offset + 2)).headD 0
        psiCompleteLoop bs fuel (offset + 3 + (((b1 <<< 8) ||| b2) &&& 0xfff))
    else decide (offset ≤ bs.length)

/-- isPSIComplete: concatenate the held payload slices, read the pointer
field, skip the filler, then loop over section headers. -/
def isPSIComplete (pl : List Packet) : Bool :=
  let bs := (pl.map Packet.Payload).flatten
  if bs.length < 1 then false
  else psiCompleteLoop bs (bs.length + 1) (1 + bs.headD 0)

/-- The all-zero packet, standing for Go's zero value. -/
def emptyPacket : Packet := ⟨⟨0, false, false, false, 0, false, false, 0⟩, none, []⟩

/-- hasDiscontinuity: the discontinuity indicator is set, or a
payload-carrying packet does not continue the counter, or a payload-less
packet does not repeat it. -/
def hasDiscontinuity (tl p : Packet) : Bool :=
  (p.Header.HasAdaptationField &&
    (match p.AdaptationField with
     | some af => af.DiscontinuityIndicator
     | none => false)) ||
  ((p.Header.HasPayload &&
      p.Header.ContinuityCounter != (tl.Header.ContinuityCounter + 1) % 16) ||
   (!p.Header.HasPayload &&
      p.Header.ContinuityCounter != tl.Header.ContinuityCounter))

/-- isSameAsPrevious: a payload-carrying packet repeating the counter. -/
def isSameAsPrevious (tl p : Packet) : Bool :=
  p.Header.HasPayload && p.Header.ContinuityCounter == tl.Header.ContinuityCounter

/-- PacketList.IsEmpty: nil or empty list of packets. -/
def plIsEmpty : Option (List Packet) → Bool
  | none => true
  | some l => l.isEmpty

/-- The tail step of packetAccumulator.add: append the packet, then when a
program map is attached and the PID is the PAT PID or a registered PMT
PID, run the PSI completion check and flush the accumulator when it says
the unit is complete. -/
def accAddFinish (pid : Nat) (pm : Option ProgramMapT) (mps : List Packet) (p : Packet)
    (fl : Option (List Packet)) : Option (List Packet) × Option (List Packet) :=
  let mps := mps ++ [p]
  if pm.isSome && (pid == PIDPAT || pmExistsUnlocked (pm.getD []) pid) && isPSIComplete mps then
    (none, some mps)
  else (some mps, fl)

/-- packetAccumulator.add: drop retransmissions, clear on discontinuity,
flush on a payload-unit start, append, then the PSI completion check.
Returns the new accumulator state and the flushed list, if any. -/
def packetAccumulatorAdd (pid : Nat) (pm : Option ProgramMapT)
    (q : Option (List Packet)) (p : Packet) :
    Option (List Packet) × Option (List Packet) :=
  if !(plIsEmpty q) then
    let l := q.getD []
    let tl := l.getLast?.getD emptyPacket
    if isSameAsPrevious tl p then (q, none)
    else
      let l1 := if hasDiscontinuity tl p then [] else l
      let (fl, l2) :=
        if p.Header.PayloadUnitStartIndicator then (some l1, ([] : List Packet))
        else (none, l1)
      accAddFinish pid pm l2 p fl
  else
    accAddFinish pid pm [] p none

/-! ## PSI section parser (psi.go source) -/

/-- PSI section header fields. -/
structure PSISectionHeader where
  SectionLength : Nat
  TableID : Nat
  SectionSyntaxIndicator : Bool
  PrivateBit : Bool
  deriving DecidableEq

/-- PSI section syntax header fields. -/
structure PSISectionSyntaxHeader where
  CurrentNextIndicator : Bool
  LastSectionNumber : Nat
  SectionNumber : Nat
  VersionNumber : Nat
  TableIDExtension : Nat
  deriving DecidableEq

/-- Parsed table bodies, one per dispatchable table kind. -/
structure PSISectionSyntaxData where
  EIT : Option EITData
  NIT : Option NITData
  PAT : Option PATData
  PMT : Option PMTData
  SDT : Option SDTData
  TOT : Option TOTData
  deriving DecidableEq

/-- The syntax part of a section: optional body data plus the syntax
header. -/
structure PSISectionSyntaxRec where
  Data : Option PSISectionSyntaxData
  Header : PSISectionSyntaxHeader
  deriving DecidableEq

/-- A PSI section: syntax part, CRC32 and header. -/
structure PSISection where
  syn : Option PSISectionSyntaxRec
  CRC32 : Nat
  Header : PSISectionHeader
  deriving DecidableEq

/-- PSI data: pointer field plus the parsed sections. -/
structure PSIData where
  PointerField : Nat
  Sections : List PSISection
  deriving DecidableEq

/-- hasPSISyntaxHeader over the table id. -/
def hasPSISyntaxHeader (t : Nat) : Bool :=
  t == 0x00 || t == 0x02 || t == 0x40 || t == 0x41 || t == 0x42 || t == 0x46 ||
    (0x4e ≤ t && t ≤ 0x6f)

/-- hasCRC32 over the table id. -/
def hasCRC32 (t : Nat) : Bool :=
  hasPSISyntaxHeader t || t == 0x73

/-- parsePSISectionHeader: table id byte; on a stop id return only the
start offset; otherwise the 2 bytes holding the syntax indicator, private
bit and 12-bit section length, plus the four derived offsets
(start, sections start, sections end, end). -/
def parsePSISectionHeader (i : BytesIterator) :
    Except TSError (PSISectionHeader × Nat × Nat × Nat × Nat × BytesIterator) := do
  let offsetStart := i.offset
  let (b, i) ← i.nextByte
  let tableID := b
  if shouldStopPSIParsing tableID then
    return (⟨0, tableID, false, false⟩, offsetStart, 0, 0, 0, i)
  else do
    let (bs, i) ← i.nextBytesNoCopy 2
    let val := ((bs.getD 0 0) <<< 8) ||| bs.getD 1 0
    let sectionLength := val &&& 0xfff
    let offsetSectionsStart := i.offset
    let offsetEnd := offsetSectionsStart + sectionLength
    let offsetSectionsEnd := if hasCRC32 tableID then offsetEnd - 4 else offsetEnd
    return (⟨sectionLength, tableID, val &&& 0x8000 != 0, val &&& 0x4000 != 0⟩,
      offsetStart, offsetSectionsStart, offsetSectionsEnd, offsetEnd, i)

/-- parsePSISectionSyntaxHeader: 16-bit table id extension, version and
current-next bits, section number and last section number. -/
def parsePSISectionSyntaxHeader (i : BytesIterator) :
    Except TSError (PSISectionSyntaxHeader × BytesIterator) := do
  let (bs, i) ← i.nextBytesNoCopy 2
  let tableIDExtension := ((bs.getD 0 0) <<< 8) ||| bs.getD 1 0
  let (b, i) ← i.nextByte
  let versionNumber := (b &&& 0x3f) >>> 1
  let currentNextIndicator := b &&& 0x1 != 0
  let (sn, i) ← i.nextByte
  let (lsn, i) ← i.nextByte
  return (⟨currentNextIndicator, lsn, sn, versionNumber, tableIDExtension⟩, i)

/-- The table-body dispatch (parsePSISectionSyntaxData) is injected: the
spec treats table-body parsers as external collaborators of the core. -/
abbrev SyntaxDataParser :=
  PSISectionHeader → PSISectionSyntaxHeader → Nat → BytesIterator →
    Except TSError (PSISectionSyntaxData × BytesIterator)

/-- The injected dispatcher restricted to the table ids whose body parsing
is a TODO in the source (BAT, DIT, RST, SIT, ST, TDT): it consumes nothing
and produces no body. -/
def syntaxDataNoBody : SyntaxDataParser :=
  fun _ _ _ i => .ok (⟨none, none, none, none, none, none⟩, i)

/-- parsePSISectionSyntax: the syntax header when the table id carries
one, then the injected body dispatch. -/
def parsePSISectionSyntaxRecFn (dataP : SyntaxDataParser) (i : BytesIterator)
    (h : PSISectionHeader) (offsetSectionsEnd : Nat) :
    Except TSError (PSISectionSyntaxRec × BytesIterator) := do
  let (sh, i) ←
    if hasPSISyntaxHeader h.TableID then parsePSISectionSyntaxHeader i
    else pure ((⟨false, 0, 0, 0, 0⟩ : PSISectionSyntaxHeader), i)
  let (d, i) ← dataP h sh offsetSectionsEnd i
  return (⟨some d, sh⟩, i)

/-- parseCRC32: 4 bytes big-endian. -/
def parseCRC32 (i : BytesIterator) : Except TSError (Nat × BytesIterator) := do
  let (bs, i) ← i.nextBytesNoCopy 4
  return ((((bs.getD 0 0) <<< 24) ||| ((bs.getD 1 0) <<< 16)) |||
    (((bs.getD 2 0) <<< 8) ||| bs.getD 3 0), i)

/-- Modelled from the spec: one round of the MPEG-2 CRC32 (crc32.go is
not part of the given sources): shift left and conditionally xor the
polynomial 0x04C11DB7, over 32 bits. -/
def crc32Round (crc : Nat) : Nat :=
  if crc &&& 0x80000000 ≠ 0 then ((crc <<< 1) ^^^ 0x04C11DB7) &&& 0xffffffff
  else (crc <<< 1) &&& 0xffffffff

/-- Modelled from the spec: fold one byte into the MPEG-2 CRC32. -/
def crc32Byte (crc b : Nat) : Nat :=
  let c := crc ^^^ ((b &&& 0xff) <<< 24)
  crc32Round (crc32Round (crc32Round (crc32Round
    (crc32Round (crc32Round (crc32Round (crc32Round c)))))))

/-- Modelled from the spec: computeCRC32 with MPEG-2's polynomial,
initial value 0xFFFFFFFF and no output inversion (crc32.go is not part of
the given sources). -/
def computeCRC32 (bs : List Nat) : Nat :=
  bs.foldl crc32Byte 0xffffffff

/-- parsePSISection: header, stop check, syntax part, then for table ids
carrying a CRC32 read the stored trailing 4 bytes, recompute the CRC32
over the bytes from the section start to the sections end, and fail on a
mismatch; finally seek to the section end. -/
def parsePSISection (dataP : SyntaxDataParser) (i : BytesIterator) :
    Except TSError (PSISection × Bool × BytesIterator) := do
  let (h, offsetStart, _offsetSectionsStart, offsetSectionsEnd, offsetEnd, i) ←
    parsePSISectionHeader i
  if shouldStopPSIParsing h.TableID then
    return (⟨none, 0, h⟩, true, i)
  else do
    let (syn, crc, i) ←
      if h.SectionLength > 0 then do
        let (syn, i) ← parsePSISectionSyntaxRecFn dataP i h offsetSectionsEnd
        if hasCRC32 h.TableID then do
          let i := i.seek offsetSectionsEnd
          let (crc, i) ← parseCRC32 i
          let i := i.seek offsetStart
          let (crcData, i) ← i.nextBytesNoCopy (offsetSectionsEnd - offsetStart)
          let computed := computeCRC32 crcData
          if computed ≠ crc then
            .error (.crcMismatch crc computed)
          else
            pure (some syn, crc, i)
        else pure (some syn, 0, i)
      else pure (none, 0, i)
    let i := i.seek offsetEnd
    return (⟨syn, crc, h⟩, false, i)

/-- The section loop of parsePSIData, with fuel above the iteration
count (every non-stop section moves the cursor at least 3 bytes
forward). -/
def psiSectionsLoop (dataP : SyntaxDataParser) :
    Nat → BytesIterator → List PSISection → Except TSError (List PSISection × BytesIterator)
  | 0, i, acc => .ok (acc, i)
  | fuel + 1, i, acc =>
    if i.hasBytesLeft then
      match parsePSISection dataP i with
      | .error e => .error e
      | .ok (s, stop, i) =>
        if stop then .ok (acc ++ [s], i)
        else psiSectionsLoop dataP fuel i (acc ++ [s])
    else .ok (acc, i)

/-- parsePSIData: pointer field, filler skip, then the section loop. -/
def parsePSIData (dataP : SyntaxDataParser) (i : BytesIterator) :
    Except TSError (PSIData × BytesIterator) := do
  let (b, i) ← i.nextByte
  let i := i.skip b
  let (sections, i) ← psiSectionsLoop dataP (i.bs.length + 1) i []
  return (⟨b, sections⟩, i)

/-- PSIData.toData: one DemuxerData per section with a parsed body,
dispatched on the table id. -/
def psiToData (d : PSIData) (af : Option PacketAdaptationField) (pid : Nat) :
    List DemuxerData :=
  d.Sections.foldl
    (fun ds s =>
      match s.syn with
      | none => ds
      | some syn =>
        match syn.Data with
        | none => ds
        | some data =>
          let ds :=
            if s.Header.TableID == 0x40 || s.Header.TableID == 0x41 then
              ds ++ [{ emptyDemuxerData with
                AdaptationField := af, NIT := data.NIT, PID := pid }]
            else if s.Header.TableID == 0x00 then
              ds ++ [{ emptyDemuxerData with
                AdaptationField := af, PAT := data.PAT, PID := pid }]
            else if s.Header.TableID == 0x02 then
              ds ++ [{ emptyDemuxerData with
                AdaptationField := af, PID := pid, PMT := data.PMT }]
            else if s.Header.TableID == 0x42 || s.Header.TableID == 0x46 then
              ds ++ [{ emptyDemuxerData with
                AdaptationField := af, PID := pid, SDT := data.SDT }]
            else if s.Header.TableID == 0x73 then
              ds ++ [{ emptyDemuxerData with
                AdaptationField := af, PID := pid, TOT := data.TOT }]
            else ds
          if 0x4e ≤ s.Header.TableID && s.Header.TableID ≤ 0x6f then
            ds ++ [{ emptyDemuxerData with
              EIT := data.EIT, AdaptationField := af, PID := pid }]
          else ds)
    []

/-! ## Payload classification and parseData (data.go source) -/

/-- isPSIPayload: PAT, a registered PMT PID, or a well-known DVB PID. -/
def isPSIPayload (pid : Nat) (pm : ProgramMapT) : Bool :=
  pid == PIDPAT || pmExistsUnlocked pm pid ||
    ((0x10 ≤ pid && pid ≤ 0x14) || (0x1e ≤ pid && pid ≤ 0x1f))

/-- isPESPayload: at least 4 bytes and the 00 00 01 start-code prefix. -/
def isPESPayload (bs : List Nat) : Bool :=
  if bs.length < 4 then false
  else
    (((((bs.getD 0 0) <<< 24) ||| ((bs.getD 1 0) <<< 16)) |||
      (((bs.getD 2 0) <<< 8) ||| bs.getD 3 0)) >>> 8) == 1

/-- A custom packets parser: records, and a skip flag asking to bypass
the native path. -/
abbrev PacketsParser := List Packet → Except TSError (List DemuxerData × Bool)

/-- parseData: run the custom parser first when configured; concatenate
the held payload slices in list order into one buffer; dispatch on the
head packet's PID to the PSI or PES parser; a PES record carries the
pooled buffer as its internal data. -/
def parseData (dataP : SyntaxDataParser) (pl : List Packet) (prs : Option PacketsParser)
    (pm : ProgramMapT) : Except TSError (List DemuxerData) :=
  let fp := pl.headD emptyPacket
  let pid := fp.Header.PID
  let af := fp.AdaptationField
  let buf := (pl.map Packet.Payload).flatten
  let native := fun (ds0 : List DemuxerData) =>
    if pid == PIDCAT then Except.ok ds0
    else if isPSIPayload pid pm then
      match parsePSIData dataP ⟨buf, 0⟩ with
      | .error e => .error e
      | .ok (psi, _) => .ok (psiToData psi af pid)
    else if isPESPayload buf then
      match parsePESData ⟨buf, 0⟩ with
      | .error e => .error e
      | .ok (pes, _) =>
        .ok [{ emptyDemuxerData with
          AdaptationField := af, PES := some pes, PID := pid,
          internalData := some buf }]
    else Except.ok ds0
  match prs with
  | some f =>
    match f pl with
    | .error _ => .error .customParseFailed
    | .ok (ds, skip) => if skip then .ok ds else native ds
  | none => native []


/-! ## Theorems -/

/-! ## Arithmetic helpers for the bitwise codecs -/

/-- Bitwise or acts as addition when the left operand has no low bits and
the right operand fits into them. -/
theorem lor_of_low_zero {n : Nat} {a b : Nat} (ha : a % 2 ^ n = 0) (hb : b < 2 ^ n) :
    a ||| b = a + b := by
  obtain ⟨c, hc⟩ : 2 ^ n ∣ a := Nat.dvd_of_mod_eq_zero ha
  subst hc
  rw [← Nat.mul_add_lt_is_or hb]

/-- Recombining the high 32 bits (shifted) with the low 32 bits of a value
by bitwise or restores the value: overlapping bit ranges agree. -/
theorem lor_recombine (v : Nat) : ((v / 2 ^ 16) * 2 ^ 16) ||| (v % 2 ^ 32) = v := by
  apply Nat.eq_of_testBit_eq
  intro i
  rw [Nat.testBit_or, Nat.testBit_mod_two_pow, Nat.mul_comm, Nat.testBit_mul_pow_two]
  have hdiv : v / 2 ^ 16 = v >>> 16 := (Nat.shiftRight_eq_div_pow v 16).symm
  rw [hdiv, Nat.testBit_shiftRight]
  rcases Nat.lt_or_ge i 16 with h16 | h16
  · have h32 : i < 32 := by omega
    simp [Nat.not_le_of_lt h16, h32]
  · have h1 : 16 + (i - 16) = i := by omega
    rw [h1]
    rcases Nat.lt_or_ge i 32 with h32 | h32
    · simp [h16, h32]
    · simp [h16, Nat.not_lt_of_le h32]

/-- Unfolded arithmetic form of `newClockReference` in range. -/
theorem newClockReference_eq (base ext : Nat) (hb : base < 2 ^ 33) (he : ext < 2 ^ 9) :
    newClockReference base ext = 512 * base + ext := by
  unfold newClockReference
  rw [Nat.shiftLeft_eq]
  have h1 : base * 2 ^ 9 % 2 ^ 64 = base * 2 ^ 9 := by
    apply Nat.mod_eq_of_lt
    have : base * 2 ^ 9 < 2 ^ 33 * 2 ^ 9 :=
      Nat.mul_lt_mul_of_lt_of_le hb (Nat.le_refl _) (by norm_num)
    omega
  rw [h1]
  have h2 : ext &&& 0x1ff = ext % 2 ^ 9 := by
    have : (0x1ff : Nat) = 2 ^ 9 - 1 := by norm_num
    rw [this, Nat.and_pow_two_sub_one_eq_mod]
  rw [h2, Nat.mod_eq_of_lt he, lor_of_low_zero (n := 9) (by omega) he]
  ring

/-- Base and Extension of a clock reference built from in-range values. -/
theorem clockReference_base_extension (base ext : Nat) (hb : base < 2 ^ 33) (he : ext < 2 ^ 9) :
    (newClockReference base ext).Base = base ∧ (newClockReference base ext).Extension = ext := by
  rw [newClockReference_eq base ext hb he]
  unfold ClockReference.Base ClockReference.Extension
  rw [Nat.shiftRight_eq_div_pow]
  have h2 : (512 * base + ext) &&& 0x1ff = (512 * base + ext) % 2 ^ 9 := by
    have : (0x1ff : Nat) = 2 ^ 9 - 1 := by norm_num
    rw [this, Nat.and_pow_two_sub_one_eq_mod]
  rw [h2]
  constructor <;> omega

/-- The 48-bit value packed by writePCR, in arithmetic form. -/
theorem writePCR_value (base ext : Nat) (hb : base < 2 ^ 33) (he : ext < 2 ^ 9) :
    ((newClockReference base ext).Extension |||
      (((newClockReference base ext).Base <<< 15) % (2 ^ 64))) ||| (0x7e <<< 8) =
      32768 * base + 32256 + ext := by
  obtain ⟨hB, hE⟩ := clockReference_base_extension base ext hb he
  rw [hB, hE, Nat.shiftLeft_eq]
  have hmod : base * 2 ^ 15 % 2 ^ 64 = base * 2 ^ 15 := by
    apply Nat.mod_eq_of_lt
    have : base * 2 ^ 15 < 2 ^ 33 * 2 ^ 15 :=
      Nat.mul_lt_mul_of_lt_of_le hb (Nat.le_refl _) (by norm_num)
    omega
  rw [hmod]
  have hc : (0x7e <<< 8 : Nat) = 32256 := by decide
  rw [hc, Nat.or_assoc]
  have h1 : base * 2 ^ 15 ||| 32256 = base * 2 ^ 15 + 32256 :=
    lor_of_low_zero (n := 15) (by omega) (by norm_num)
  rw [h1, Nat.or_comm]
  have h2 : base * 2 ^ 15 + 32256 ||| ext = base * 2 ^ 15 + 32256 + ext :=
    lor_of_low_zero (n := 9) (by omega) (by omega)
  rw [h2]
  ring

/-- Symbolic evaluation of parsePCR on an explicit 6-byte buffer. -/
theorem parsePCR_eval (b0 b1 b2 b3 b4 b5 : Nat) :
    ClockReference.parsePCR ⟨[b0, b1, b2, b3, b4, b5], 0⟩ =
      .ok (newClockReference
            (((((((b0 <<< 24) ||| (b1 <<< 16)) ||| ((b2 <<< 8) ||| b3)) <<< 16) % (2 ^ 64)) |||
              (((b2 <<< 24) ||| (b3 <<< 16)) ||| ((b4 <<< 8) ||| b5))) >>> 15)
            (((((((b0 <<< 24) ||| (b1 <<< 16)) ||| ((b2 <<< 8) ||| b3)) <<< 16) % (2 ^ 64)) |||
              (((b2 <<< 24) ||| (b3 <<< 16)) ||| ((b4 <<< 8) ||| b5))) &&& 0x1ff),
           ⟨[b0, b1, b2, b3, b4, b5], 6⟩) := by
  rfl

/-- The six big-endian bytes of a 48-bit value, recombined the way
parsePCR recombines them, restore the value. -/
theorem parse_write_pcr_value (v : Nat) (hvlt : v < 2 ^ 48) :
    (((((((v >>> 40) &&& 0xff) <<< 24) ||| (((v >>> 32) &&& 0xff) <<< 16)) |||
        ((((v >>> 24) &&& 0xff) <<< 8) ||| ((v >>> 16) &&& 0xff))) <<< 16) % (2 ^ 64)) |||
      (((((v >>> 24) &&& 0xff) <<< 24) ||| (((v >>> 16) &&& 0xff) <<< 16)) |||
        ((((v >>> 8) &&& 0xff) <<< 8) ||| (v &&& 0xff))) = v := by
  have hmask : ∀ x : Nat, x &&& 0xff = x % 2 ^ 8 := by
    intro x
    have : (0xff : Nat) = 2 ^ 8 - 1 := by norm_num
    rw [this, Nat.and_pow_two_sub_one_eq_mod]
  simp only [Nat.shiftRight_eq_div_pow, Nat.shiftLeft_eq, hmask]
  set c0 := v / 2 ^ 40 % 2 ^ 8 with hc0
  set c1 := v / 2 ^ 32 % 2 ^ 8 with hc1
  set c2 := v / 2 ^ 24 % 2 ^ 8 with hc2
  set c3 := v / 2 ^ 16 % 2 ^ 8 with hc3
  set c4 := v / 2 ^ 8 % 2 ^ 8 with hc4
  set c5 := v % 2 ^ 8 with hc5
  have hd0 : c0 < 2 ^ 8 := Nat.mod_lt _ (by norm_num)
  have hd1 : c1 < 2 ^ 8 := Nat.mod_lt _ (by norm_num)
  have hd2 : c2 < 2 ^ 8 := Nat.mod_lt _ (by norm_num)
  have hd3 : c3 < 2 ^ 8 := Nat.mod_lt _ (by norm_num)
  have hd4 : c4 < 2 ^ 8 := Nat.mod_lt _ (by norm_num)
  have hd5 : c5 < 2 ^ 8 := Nat.mod_lt _ (by norm_num)
  have e1 : c0 * 2 ^ 24 ||| c1 * 2 ^ 16 = c0 * 2 ^ 24 + c1 * 2 ^ 16 :=
    lor_of_low_zero (n := 24) (by omega) (by omega)
  have e2 : c2 * 2 ^ 8 ||| c3 = c2 * 2 ^ 8 + c3 :=
    lor_of_low_zero (n := 8) (by omega) hd3
  have e3 : (c0 * 2 ^ 24 + c1 * 2 ^ 16) ||| (c2 * 2 ^ 8 + c3) =
      c0 * 2 ^ 24 + c1 * 2 ^ 16 + (c2 * 2 ^ 8 + c3) :=
    lor_of_low_zero (n := 16) (by omega) (by omega)
  have e4 : c2 * 2 ^ 24 ||| c3 * 2 ^ 16 = c2 * 2 ^ 24 + c3 * 2 ^ 16 :=
    lor_of_low_zero (n := 24) (by omega) (by omega)
  have e5 : c4 * 2 ^ 8 ||| c5 = c4 * 2 ^ 8 + c5 :=
    lor_of_low_zero (n := 8) (by omega) hd5
  have e6 : (c2 * 2 ^ 24 + c3 * 2 ^ 16) ||| (c4 * 2 ^ 8 + c5) =
      c2 * 2 ^ 24 + c3 * 2 ^ 16 + (c4 * 2 ^ 8 + c5) :=
    lor_of_low_zero (n := 16) (by omega) (by omega)
  rw [e1, e2, e3, e4, e5, e6]
  have hu32a : c0 * 2 ^ 24 + c1 * 2 ^ 16 + (c2 * 2 ^ 8 + c3) = v / 2 ^ 16 := by omega
  have hu32b : c2 * 2 ^ 24 + c3 * 2 ^ 16 + (c4 * 2 ^ 8 + c5) = v % 2 ^ 32 := by omega
  rw [hu32a, hu32b]
  have hmod : v / 2 ^ 16 * 2 ^ 16 % 2 ^ 64 = v / 2 ^ 16 * 2 ^ 16 := by
    apply Nat.mod_eq_of_lt
    omega
  rw [hmod, lor_recombine]

/-- C10: for every clock reference with base < 2^33 and extension < 2^9,
writing it with writePCR (33 base bits on top, then 6 reserved one-bits,
then the 9 extension bits) and parsing the resulting 6 bytes with parsePCR
yields the original base and extension back: parsePCR after writePCR is
the identity. -/
theorem claim_C10_pcr_roundtrip (base ext : Nat) (hb : base < 2 ^ 33) (he : ext < 2 ^ 9) :
    ClockReference.parsePCR ⟨writePCRBytes (newClockReference base ext), 0⟩ =
      .ok (newClockReference base ext,
           ⟨writePCRBytes (newClockReference base ext), 6⟩) ∧
    (newClockReference base ext).Base = base ∧
    (newClockReference base ext).Extension = ext := by
  refine ⟨?_, clockReference_base_extension base ext hb he⟩
  have hV : (32768 * base + 32256 + ext) < 2 ^ 48 := by
    have : 32768 * base < 32768 * 2 ^ 33 := by omega
    omega
  have hw : writePCRBytes (newClockReference base ext) =
      [((32768 * base + 32256 + ext) >>> 40) &&& 0xff,
       ((32768 * base + 32256 + ext) >>> 32) &&& 0xff,
       ((32768 * base + 32256 + ext) >>> 24) &&& 0xff,
       ((32768 * base + 32256 + ext) >>> 16) &&& 0xff,
       ((32768 * base + 32256 + ext) >>> 8) &&& 0xff,
       (32768 * base + 32256 + ext) &&& 0xff] := by
    unfold writePCRBytes
    rw [writePCR_value base ext hb he]
  rw [hw, parsePCR_eval, parse_write_pcr_value _ hV]
  have hbase : (32768 * base + 32256 + ext) >>> 15 = base := by
    rw [Nat.shiftRight_eq_div_pow]
    omega
  have hext : (32768 * base + 32256 + ext) &&& 0x1ff = ext := by
    have h9 : (0x1ff : Nat) = 2 ^ 9 - 1 := by norm_num
    rw [h9, Nat.and_pow_two_sub_one_eq_mod]
    omega
  rw [hbase, hext]

/-- Witness for C10 at base 8589934591 = 2^33 - 1 and extension 299. -/
theorem claim_C10_pcr_roundtrip_witness :
    ClockReference.parsePCR ⟨writePCRBytes (newClockReference 8589934591 299), 0⟩ =
      .ok (newClockReference 8589934591 299,
           ⟨writePCRBytes (newClockReference 8589934591 299), 6⟩) ∧
    (newClockReference 8589934591 299).Base = 8589934591 ∧
    (newClockReference 8589934591 299).Extension = 299 :=
  claim_C10_pcr_roundtrip 8589934591 299 (by norm_num) (by norm_num)

/-- findSyncIndex finds nothing when no eligible index holds a sync byte. -/
theorem findSyncIndex_none (l : List Nat) (start : Nat)
    (h : ∀ j, j < l.length → MpegTsPacketSize ≤ start + j → l.getD j 0 ≠ syncByte) :
    findSyncIndex l start = none := by
  induction l generalizing start with
  | nil => rfl
  | cons b rest ih =>
    unfold findSyncIndex
    have hb := h 0 (by simp)
    rw [if_neg]
    · exact ih (start + 1) (by
        intro j hj hge
        have := h (j + 1) (by simpa using Nat.succ_lt_succ hj) (by omega)
        simpa using this)
    · intro ⟨hsync, hge⟩
      exact hb (by omega) (by simpa using hsync)

/-- findSyncIndex returns the first eligible sync-byte index. -/
theorem findSyncIndex_some (l : List Nat) (start k : Nat)
    (hk : k < l.length) (hsync : l.getD k 0 = syncByte)
    (hge : MpegTsPacketSize ≤ start + k)
    (hbefore : ∀ j, j < k → MpegTsPacketSize ≤ start + j → l.getD j 0 ≠ syncByte) :
    findSyncIndex l start = some (start + k) := by
  induction l generalizing start k with
  | nil => simp at hk
  | cons b rest ih =>
    unfold findSyncIndex
    match k with
    | 0 =>
      simp only [List.getD] at hsync
      rw [if_pos ⟨by simpa using hsync, by omega⟩]
      simp
    | k' + 1 =>
      rw [if_neg]
      · have := ih (start + 1) k' (by simpa using Nat.lt_of_succ_lt_succ hk)
          (by simpa using hsync) (by omega)
          (by
            intro j hj hge2
            have := hbefore (j + 1) (by omega) (by omega)
            simpa using this)
        rw [this]
        congr 1
        omega
      · intro ⟨hb, hge2⟩
        exact hbefore 0 (by omega) (by omega) (by simpa using hb)

/-- Reading an in-range index of a take-prefix reads the original list. -/
theorem getD_take_193 (bs : List Nat) (j : Nat) (h : j < 193) :
    (bs.take 193).getD j 0 = bs.getD j 0 := by
  simp [List.getD_eq_getElem?_getD, List.getElem?_take_of_lt h]

/-- C6: for every byte sequence whose first byte is 0x47 and whose next
0x47 occurs at index k with 188 <= k <= 192, autoDetectPacketSize returns
packet size k; if the first byte is not 0x47 it fails with
PacketMustStartWithSyncByte, and if no second sync byte occurs at index
>= 188 within the first 193 bytes it fails with an error. -/
theorem claim_C6_auto_detect_packet_size (bs : List Nat) (hlen : 193 ≤ bs.length)
    (_hbytes : ∀ b ∈ bs, b < 256) :
    (∀ k, bs.getD 0 0 = 0x47 → 188 ≤ k → k ≤ 192 → bs.getD k 0 = 0x47 →
      (∀ j, 188 ≤ j → j < k → bs.getD j 0 ≠ 0x47) →
      autoDetectPacketSize bs = .ok k) ∧
    (bs.getD 0 0 ≠ 0x47 →
      autoDetectPacketSize bs = .error .packetMustStartWithASyncByte) ∧
    (bs.getD 0 0 = 0x47 → (∀ j, 188 ≤ j → j ≤ 192 → bs.getD j 0 ≠ 0x47) →
      autoDetectPacketSize bs = .error .onlyOneSyncByte) := by
  have hplen : (bs.take 193).length = 193 := by
    simp [List.length_take]
    omega
  refine ⟨?_, ?_, ?_⟩
  · intro k h0 hk1 hk2 hk3 hk4
    unfold autoDetectPacketSize
    rw [if_neg (by omega)]
    simp only
    rw [if_neg (by
      rw [getD_take_193 bs 0 (by norm_num), h0]
      simp [syncByte])]
    have hfind : findSyncIndex (bs.take 193) 0 = some (0 + k) := by
      apply findSyncIndex_some
      · omega
      · rw [getD_take_193 bs k (by omega), hk3]
        rfl
      · simpa [MpegTsPacketSize] using hk1
      · intro j hj hge
        rw [getD_take_193 bs j (by omega)]
        exact hk4 j (by simpa [MpegTsPacketSize] using hge) hj
    rw [hfind]
    simp
  · intro h0
    unfold autoDetectPacketSize
    rw [if_neg (by omega)]
    simp only
    rw [if_pos (by
      rw [getD_take_193 bs 0 (by norm_num)]
      simpa [syncByte] using h0)]
  · intro h0 hnone
    unfold autoDetectPacketSize
    rw [if_neg (by omega)]
    simp only
    rw [if_neg (by
      rw [getD_take_193 bs 0 (by norm_num), h0]
      simp [syncByte])]
    have hfind : findSyncIndex (bs.take 193) 0 = none := by
      apply findSyncIndex_none
      intro j hj hge
      rw [getD_take_193 bs j (by omega)]
      exact hnone j (by simpa [MpegTsPacketSize] using hge) (by omega)
    rw [hfind]

set_option maxRecDepth 4000 in
/-- Witness for C6: a 193-byte buffer with sync bytes at 0 and 192. -/
theorem claim_C6_auto_detect_packet_size_witness :
    autoDetectPacketSize (0x47 :: (List.replicate 191 0 ++ [0x47, 0x55])) = .ok 192 := by
  have h := (claim_C6_auto_detect_packet_size
      (0x47 :: (List.replicate 191 0 ++ [0x47, 0x55]))
      (by simp) (by decide)).1 192 (by rfl) (by norm_num) (by norm_num)
      (by rfl)
      (by
        intro j h1 h2
        interval_cases j <;> decide)
  exact h

/-- C1: when parsing a packet fails with an error flagged recoverable and
the skip-error counter is below the limit, the counter is incremented, the
erroneous chunk is discarded and the next chunk is read and parsed with no
error surfaced; once the counter is at or above the limit the error is
surfaced; and every successful parse resets the counter to zero. -/
theorem claim_C1_skip_err_policy (parseFn : List Nat → Bool × Option TSError)
    (limit : Nat) (bs : List Nat) (rest : List (List Nat)) (counter : Nat)
    (e : TSError) (hrec : parseFn bs = (true, some e)) :
    (counter < limit →
      packetBufferNext parseFn limit (bs :: rest) counter =
        packetBufferNext parseFn limit rest (counter + 1)) ∧
    (limit ≤ counter →
      packetBufferNext parseFn limit (bs :: rest) counter =
        .error (.buildingPacketFailed e)) ∧
    (∀ bs2, parseFn bs2 = (false, none) → ∀ rest2 c2,
      packetBufferNext parseFn limit (bs2 :: rest2) c2 = .ok (bs2, 0)) := by
  refine ⟨?_, ?_, ?_⟩
  · intro hlt
    conv_lhs => unfold packetBufferNext
    rw [hrec]
    simp [hlt]
  · intro hge
    unfold packetBufferNext
    rw [hrec]
    simp [Nat.not_lt_of_le hge]
  · intro bs2 hok rest2 c2
    conv_lhs => unfold packetBufferNext
    rw [hok]
    simp

/-- Witness for C1: one recoverable error with limit 2 retries and is
followed by a successful parse; at the limit the error surfaces. -/
theorem claim_C1_skip_err_policy_witness :
    (0 < 2 →
      packetBufferNext (fun bs => if bs = [0] then (true, some .noBytesLeft) else (false, none))
        2 ([0] :: [[1]]) 0 =
      packetBufferNext (fun bs => if bs = [0] then (true, some .noBytesLeft) else (false, none))
        2 [[1]] 1) ∧
    (2 ≤ 5 →
      packetBufferNext (fun bs => if bs = [0] then (true, some .noBytesLeft) else (false, none))
        2 ([0] :: [[1]]) 5 =
      .error (.buildingPacketFailed .noBytesLeft)) ∧
    (∀ bs2,
      (fun bs => if bs = [0] then (true, some TSError.noBytesLeft) else (false, none)) bs2 =
        (false, none) → ∀ rest2 c2,
      packetBufferNext (fun bs => if bs = [0] then (true, some .noBytesLeft) else (false, none))
        2 (bs2 :: rest2) c2 = .ok (bs2, 0)) := by
  have h := claim_C1_skip_err_policy
    (fun bs => if bs = [0] then (true, some .noBytesLeft) else (false, none))
    2 [0] [[1]] 0 .noBytesLeft (by decide)
  have h5 := claim_C1_skip_err_policy
    (fun bs => if bs = [0] then (true, some .noBytesLeft) else (false, none))
    2 [0] [[1]] 5 .noBytesLeft (by decide)
  exact ⟨fun _ => h.1 (by norm_num), fun _ => h5.2.1 (by norm_num), h.2.2⟩

/-- pmSetUnlocked with a positive number keeps every stored number
positive. -/
theorem pmSetUnlocked_pos (m : ProgramMapT) (pid number : Nat)
    (hm : ∀ pr ∈ m, 0 < pr.2) (hn : 0 < number) :
    ∀ pr ∈ pmSetUnlocked m pid number, 0 < pr.2 := by
  induction m with
  | nil =>
    intro pr hpr
    simp [pmSetUnlocked] at hpr
    subst hpr
    exact hn
  | cons hd tl ih =>
    intro pr hpr
    unfold pmSetUnlocked at hpr
    by_cases hq : hd.1 = pid
    · rw [if_pos (by exact hq)] at hpr
      rcases List.mem_cons.mp hpr with h | h
      · subst h
        exact hn
      · exact hm pr (List.mem_cons_of_mem _ h)
    · rw [if_neg (by exact hq)] at hpr
      rcases List.mem_cons.mp hpr with h | h
      · subst h
        exact hm hd (List.mem_cons_self _ _)
      · exact ih (fun x hx => hm x (List.mem_cons_of_mem _ hx)) pr h

/-- One PAT batch keeps every stored number positive. -/
theorem updateProgramMap_pos (ds : List DemuxerData) (pm : ProgramMapT)
    (hm : ∀ pr ∈ pm, 0 < pr.2) :
    ∀ pr ∈ updateProgramMap ds pm, 0 < pr.2 := by
  unfold updateProgramMap
  induction ds generalizing pm with
  | nil => exact hm
  | cons hd tl ih =>
    simp only [List.foldl_cons]
    apply ih
    match h : hd.PAT with
    | none => simpa [h] using hm
    | some pat =>
      simp only [h]
      clear ih
      induction pat.Programs generalizing pm with
      | nil => exact hm
      | cons p ps ihp =>
        simp only [List.foldl_cons]
        apply ihp
        by_cases hp : p.ProgramNumber > 0
        · rw [if_pos hp]
          exact pmSetUnlocked_pos pm p.ProgramMapID p.ProgramNumber hm hp
        · rw [if_neg hp]
          exact hm

/-- C9: for every PAT processed by the demuxer only entries with program
number > 0 are inserted into the program map, so after any sequence of
NextData calls (any sequence of updateData batches applied to the
initially empty map) the program map never contains an association
created from a PAT entry whose program number is 0: every stored program
number is positive. -/
theorem claim_C9_program_map_no_nit (batches : List (List DemuxerData)) :
    ∀ pr ∈ batches.foldl (fun m ds => updateProgramMap ds m) [], 0 < pr.2 := by
  have h : ∀ (bs : List (List DemuxerData)) (m : ProgramMapT),
      (∀ pr ∈ m, 0 < pr.2) → ∀ pr ∈ bs.foldl (fun m ds => updateProgramMap ds m) m, 0 < pr.2 := by
    intro bs
    induction bs with
    | nil => intro m hm; exact hm
    | cons hd tl ih =>
      intro m hm
      simp only [List.foldl_cons]
      exact ih _ (updateProgramMap_pos hd m hm)
  exact h batches [] (by simp)
/-- Witness for C9: a PAT with programs 1 and 0; the recorded entry has a
positive program number. -/
theorem claim_C9_program_map_no_nit_witness : 0 < ((256, 1) : Nat × Nat).2 :=
  claim_C9_program_map_no_nit
    [[{ emptyDemuxerData with PAT := some ⟨[⟨256, 1⟩, ⟨16, 0⟩], 1⟩ }]]
    (256, 1) (by decide)

/-- C2 (amended): for every non-empty per-PID accumulator, adding a
payload-carrying non-unit-start packet whose continuity counter is neither
the tail counter (a retransmission) nor its successor mod 16 drops all
held packets; the accumulator afterwards holds exactly the newly added
packet (for a PID outside the PSI completion guard), so it is not empty. -/
theorem claim_C2_discontinuity_clears (pid : Nat) (pm : Option ProgramMapT)
    (l : List Packet) (p : Packet) (hl : l ≠ [])
    (hpay : p.Header.HasPayload = true)
    (hpusi : p.Header.PayloadUnitStartIndicator = false)
    (hcc : p.Header.ContinuityCounter ≠
      ((l.getLast?.getD emptyPacket).Header.ContinuityCounter + 1) % 16)
    (hcc2 : p.Header.ContinuityCounter ≠
      (l.getLast?.getD emptyPacket).Header.ContinuityCounter)
    (hguard : (pm.isSome && (pid == PIDPAT || pmExistsUnlocked (pm.getD []) pid)) = false) :
    packetAccumulatorAdd pid pm (some l) p = (some [p], none) := by
  have hne : l.isEmpty = false := by
    cases l with
    | nil => simp at hl
    | cons a as => rfl
  have hsame : isSameAsPrevious (l.getLast?.getD emptyPacket) p = false := by
    unfold isSameAsPrevious
    simp [hcc2]
  have hdisc : hasDiscontinuity (l.getLast?.getD emptyPacket) p = true := by
    unfold hasDiscontinuity
    simp [hpay, hcc]
  unfold packetAccumulatorAdd
  simp only [plIsEmpty, hne, Bool.not_false, if_true, Option.getD_some, hsame,
    Bool.false_eq_true, if_false, hdisc, if_true, hpusi]
  simp [accAddFinish, hguard]

/-- Counterexample to C2 as stated: continuity counters 3 then 5 on a
payload PID; after the add the accumulator holds the new packet and is
not empty. -/
theorem claim_C2_counterexample :
    (packetAccumulatorAdd 256 (some [])
        (some [⟨⟨3, false, true, false, 256, false, false, 0⟩, none, [0xab]⟩])
        ⟨⟨5, false, true, false, 256, false, false, 0⟩, none, [0xcd]⟩) =
      (some [⟨⟨5, false, true, false, 256, false, false, 0⟩, none, [0xcd]⟩], none) ∧
    plIsEmpty (packetAccumulatorAdd 256 (some [])
        (some [⟨⟨3, false, true, false, 256, false, false, 0⟩, none, [0xab]⟩])
        ⟨⟨5, false, true, false, 256, false, false, 0⟩, none, [0xcd]⟩).1 = false := by
  constructor
  · rfl
  · rfl

/-- Witness for C2: the amended theorem applied to the counters 3 then 5. -/
theorem claim_C2_discontinuity_clears_witness :
    packetAccumulatorAdd 256 (some [])
        (some [⟨⟨3, false, true, false, 256, false, false, 0⟩, none, [0xab]⟩])
        ⟨⟨5, false, true, false, 256, false, false, 0⟩, none, [0xcd]⟩ =
      (some [⟨⟨5, false, true, false, 256, false, false, 0⟩, none, [0xcd]⟩], none) :=
  claim_C2_discontinuity_clears 256 (some [])
    [⟨⟨3, false, true, false, 256, false, false, 0⟩, none, [0xab]⟩]
    ⟨⟨5, false, true, false, 256, false, false, 0⟩, none, [0xcd]⟩
    (by decide) (by decide) (by decide) (by decide) (by decide) (by decide)

/-- C3 (amended): appending a packet to an empty accumulator runs the PSI
completion check, and flushes on completion, exactly when the program map
is attached and the PID is the PAT PID or a registered PMT PID; the
well-known DVB PIDs receive no special treatment here. -/
theorem claim_C3_psi_check_guard (pid : Nat) (pm : Option ProgramMapT)
    (q : Option (List Packet)) (p : Packet) (hq : plIsEmpty q = true) :
    packetAccumulatorAdd pid pm q p =
      if pm.isSome && (pid == PIDPAT || pmExistsUnlocked (pm.getD []) pid) &&
          isPSIComplete [p] then
        (none, some [p])
      else (some [p], none) := by
  unfold packetAccumulatorAdd
  rw [hq]
  simp [accAddFinish]

/-- Counterexample to C3 as stated: a single-packet PSI unit (a complete
TDT section) on the well-known DVB PID 0x12 is not flushed by the
completion check, while the same packet on the PAT PID is. -/
theorem claim_C3_counterexample :
    isPSIComplete [⟨⟨0, false, true, true, 0x12, false, false, 0⟩, none,
        [0x00, 0x70, 0x00, 0x05, 1, 2, 3, 4, 5]⟩] = true ∧
    packetAccumulatorAdd 0x12 (some []) none
        ⟨⟨0, false, true, true, 0x12, false, false, 0⟩, none,
          [0x00, 0x70, 0x00, 0x05, 1, 2, 3, 4, 5]⟩ =
      (some [⟨⟨0, false, true, true, 0x12, false, false, 0⟩, none,
        [0x00, 0x70, 0x00, 0x05, 1, 2, 3, 4, 5]⟩], none) ∧
    packetAccumulatorAdd PIDPAT (some []) none
        ⟨⟨0, false, true, true, 0, false, false, 0⟩, none,
          [0x00, 0x70, 0x00, 0x05, 1, 2, 3, 4, 5]⟩ =
      (none, some [⟨⟨0, false, true, true, 0, false, false, 0⟩, none,
        [0x00, 0x70, 0x00, 0x05, 1, 2, 3, 4, 5]⟩]) := by
  refine ⟨rfl, rfl, rfl⟩

/-- Witness for C3: the amended theorem applied to the DVB PID 0x12 with
an empty program map. -/
theorem claim_C3_psi_check_guard_witness :
    packetAccumulatorAdd 0x12 (some []) none
        ⟨⟨0, false, true, true, 0x12, false, false, 0⟩, none,
          [0x00, 0x70, 0x00, 0x05, 1, 2, 3, 4, 5]⟩ =
      (if (some ([] : ProgramMapT)).isSome &&
          ((0x12 : Nat) == PIDPAT || pmExistsUnlocked (((some ([] : ProgramMapT))).getD []) 0x12) &&
          isPSIComplete [⟨⟨0, false, true, true, 0x12, false, false, 0⟩, none,
            [0x00, 0x70, 0x00, 0x05, 1, 2, 3, 4, 5]⟩] then
        (none, some [⟨⟨0, false, true, true, 0x12, false, false, 0⟩, none,
          [0x00, 0x70, 0x00, 0x05, 1, 2, 3, 4, 5]⟩])
      else (some [⟨⟨0, false, true, true, 0x12, false, false, 0⟩, none,
        [0x00, 0x70, 0x00, 0x05, 1, 2, 3, 4, 5]⟩], none)) :=
  claim_C3_psi_check_guard 0x12 (some []) none
    ⟨⟨0, false, true, true, 0x12, false, false, 0⟩, none,
      [0x00, 0x70, 0x00, 0x05, 1, 2, 3, 4, 5]⟩ (by decide)

/-- Evaluation of nextBytesNoCopy on an in-bounds read. -/
theorem nextBytesNoCopy_ok (bs : List Nat) (off n : Nat) (h : off + n ≤ bs.length) :
    BytesIterator.nextBytesNoCopy ⟨bs, off⟩ n = .ok ((bs.drop off).take n, ⟨bs, off + n⟩) := by
  unfold BytesIterator.nextBytesNoCopy
  rw [if_neg (by simpa using h)]

/-- Evaluation of nextByte on an in-bounds read. -/
theorem nextByte_ok (bs : List Nat) (off : Nat) (h : off < bs.length) :
    BytesIterator.nextByte ⟨bs, off⟩ = .ok ((bs.drop off).headD 0, ⟨bs, off + 1⟩) := by
  unfold BytesIterator.nextByte
  rw [if_neg (by simpa using h)]

/-- C4 (amended): for a slot of 188+k bytes whose first byte is the sync
byte, Packet.parse skips the k bytes following the sync byte and decodes
the header from the three bytes after them; the payload (here for a
packet without adaptation field) runs to the end of the slot, trailing
bytes included. -/
theorem claim_C4_m2ts_slot_parse (pad : List Nat) (b5 b6 b7 : Nat) (rest : List Nat)
    (s : Packet → Bool) (hrest : rest.length = 184)
    (hb7AF : b7 &&& 0x20 = 0) (hb7P : b7 &&& 0x10 ≠ 0)
    (hskip : s ⟨⟨b7 &&& 0xf, b7 &&& 0x20 != 0, b7 &&& 0x10 != 0, b5 &&& 0x40 != 0,
      ((b5 <<< 8) ||| b6) &&& 0x1fff, b5 &&& 0x80 != 0, b5 &&& 0x20 != 0,
      (b7 >>> 6) &&& 0x3⟩, none, []⟩ = false) :
    packetParse (0x47 :: pad ++ b5 :: b6 :: b7 :: rest) s =
      .ok (false, ⟨⟨b7 &&& 0xf, false, true, b5 &&& 0x40 != 0,
        ((b5 <<< 8) ||| b6) &&& 0x1fff, b5 &&& 0x80 != 0, b5 &&& 0x20 != 0,
        (b7 >>> 6) &&& 0x3⟩, none, rest⟩) := by
  have hAFfalse : (b7 &&& 0x20 != 0) = false := by
    simp [hb7AF]
  have hPtrue : (b7 &&& 0x10 != 0) = true := by
    simpa using hb7P
  set slot := 0x47 :: pad ++ b5 :: b6 :: b7 :: rest with hslotdef
  have hslot : slot = ((0x47 :: pad) ++ [b5, b6, b7]) ++ rest := by
    simp [hslotdef]
  have hlen : slot.length = 188 + pad.length := by
    simp [hslotdef, hrest]
    omega
  have hdrop1 : slot.drop (pad.length + 1) = b5 :: b6 :: b7 :: rest := by
    have h1 : pad.length + 1 = (0x47 :: pad).length := by simp
    rw [hslot, List.append_assoc, h1, List.drop_left]
    simp
  have hdrop2 : slot.drop (pad.length + 1 + 3) = rest := by
    have h4 : pad.length + 1 + 3 = ((0x47 :: pad) ++ [b5, b6, b7]).length := by simp
    rw [hslot, h4, List.drop_left]
  have h184 : slot.length - (pad.length + 1 + 3) = 184 := by
    rw [hlen]
    omega
  have e1 : BytesIterator.nextBytesNoCopy ⟨slot, pad.length + 1⟩ 3 =
      .ok ([b5, b6, b7], ⟨slot, pad.length + 1 + 3⟩) := by
    rw [nextBytesNoCopy_ok slot (pad.length + 1) 3 (by rw [hlen]; omega), hdrop1]
    simp
  have e2 : parsePacketHeader ⟨slot, pad.length + 1⟩ =
      .ok (⟨b7 &&& 0xf, b7 &&& 0x20 != 0, b7 &&& 0x10 != 0, b5 &&& 0x40 != 0,
        ((b5 <<< 8) ||| b6) &&& 0x1fff, b5 &&& 0x80 != 0, b5 &&& 0x20 != 0,
        (b7 >>> 6) &&& 0x3⟩, ⟨slot, pad.length + 1 + 3⟩) := by
    unfold parsePacketHeader
    rw [e1]
    rfl
  have e3 : BytesIterator.nextBytesNoCopy ⟨slot, pad.length + 1 + 3⟩
      (slot.length - (pad.length + 1 + 3)) =
      .ok (rest, ⟨slot, pad.length + 1 + 3 + (slot.length - (pad.length + 1 + 3))⟩) := by
    rw [nextBytesNoCopy_ok slot (pad.length + 1 + 3) _ (by rw [hlen]; omega)]
    rw [hdrop2]
    rw [show rest.take (slot.length - (pad.length + 1 + 3)) = rest from by
      rw [h184, ← hrest, List.take_length]]
  have hseek : slot.length - MpegTsPacketSize + 1 = pad.length + 1 := by
    rw [hlen]
    unfold MpegTsPacketSize
    omega
  unfold packetParse
  rw [if_neg (by simp [hslotdef, syncByte])]
  simp only [BytesIterator.seek, BytesIterator.len, hseek]
  rw [e2]
  simp only [Bind.bind, Except.bind]
  rw [hskip]
  simp only [Bool.false_eq_true, if_false, hAFfalse, hPtrue, if_true,
    Bool.true_eq_false]
  simp only [payloadOffset, BytesIterator.seek, BytesIterator.len, e3,
    Bind.bind, Except.bind, pure, Except.pure]

set_option maxRecDepth 4000 in
/-- Counterexample to C4 as stated: in a 192-byte slot the bytes decoded
are byte 0 plus the trailing 187 bytes, not the leading 188.  Header bytes
1..3 encode PID 0x64 yet the parsed PID is 200 (decoded from bytes 5..7),
and the payload's last byte is one of the 4 trailing slot bytes the claim
says are ignored. -/
theorem claim_C4_counterexample :
    packetParse (0x47 :: 0x00 :: 0x64 :: 0x10 :: 0x00 :: 0x00 :: 0xC8 :: 0x10 ::
        (List.replicate 180 0xAB ++ List.replicate 4 0xEE)) (fun _ => false) =
      .ok (false, ⟨⟨0, false, true, false, 200, false, false, 0⟩, none,
        List.replicate 180 0xAB ++ List.replicate 4 0xEE⟩) ∧
    (200 : Nat) ≠ 0x64 ∧
    (List.replicate 180 0xAB ++ List.replicate 4 0xEE).getLast? = some (0xEE : Nat) := by
  refine ⟨rfl, by norm_num, by rfl⟩

set_option maxRecDepth 4000 in
/-- Witness for C4: the amended theorem applied to a 192-byte slot. -/
theorem claim_C4_m2ts_slot_parse_witness :
    packetParse (0x47 :: [0x00, 0x64, 0x10, 0x00] ++ 0x00 :: 0xC8 :: 0x10 ::
        (List.replicate 180 0xAB ++ List.replicate 4 0xEE)) (fun _ => false) =
      .ok (false, ⟨⟨0x10 &&& 0xf, false, true, 0x00 &&& 0x40 != 0,
        ((0x00 <<< 8) ||| 0xC8) &&& 0x1fff, 0x00 &&& 0x80 != 0, 0x00 &&& 0x20 != 0,
        (0x10 >>> 6) &&& 0x3⟩, none,
        List.replicate 180 0xAB ++ List.replicate 4 0xEE⟩) :=
  claim_C4_m2ts_slot_parse [0x00, 0x64, 0x10, 0x00] 0x00 0xC8 0x10
    (List.replicate 180 0xAB ++ List.replicate 4 0xEE) (fun _ => false)
    (by simp) (by decide) (by decide) rfl

/-- C7 (amended): parsePSISectionHeader reads section_length as the
12-bit field masked 0x0FFF and performs no validation against the 1021
limit: for any non-stop table id and any header bytes it succeeds, also
when the masked value exceeds 1021; no ProtocolViolation error exists on
this path. -/
theorem claim_C7_section_length_unchecked (b0 b1 b2 : Nat) (rest : List Nat)
    (hstop : shouldStopPSIParsing b0 = false) :
    parsePSISectionHeader ⟨b0 :: b1 :: b2 :: rest, 0⟩ =
      .ok (⟨((b1 <<< 8) ||| b2) &&& 0xfff, b0, ((b1 <<< 8) ||| b2) &&& 0x8000 != 0,
        ((b1 <<< 8) ||| b2) &&& 0x4000 != 0⟩, 0, 3,
        (if hasCRC32 b0 then 3 + (((b1 <<< 8) ||| b2) &&& 0xfff) - 4
         else 3 + (((b1 <<< 8) ||| b2) &&& 0xfff)),
        3 + (((b1 <<< 8) ||| b2) &&& 0xfff), ⟨b0 :: b1 :: b2 :: rest, 3⟩) := by
  unfold parsePSISectionHeader
  rw [nextByte_ok _ _ (by simp)]
  simp only [Bind.bind, Except.bind, List.drop_zero, List.headD_cons]
  rw [hstop]
  simp only [Bool.false_eq_true, if_false]
  rw [nextBytesNoCopy_ok _ _ _ (by simp)]
  simp only [Except.bind, List.drop_succ_cons, List.drop_zero]
  simp [pure, Except.pure]

set_option maxRecDepth 8000 in
/-- Counterexample to C7 as stated: a full parsePSIData run over a TDT
section whose section_length field is 1022 > 1021 succeeds with no error
(the injected body dispatch consumes nothing, as the source's TDT arm is
a TODO). -/
theorem claim_C7_counterexample :
    parsePSIData syntaxDataNoBody
        ⟨0x00 :: 0x70 :: 0x33 :: 0xFE :: List.replicate 1022 0xFF, 0⟩ =
      .ok (⟨0, [⟨some ⟨some ⟨none, none, none, none, none, none⟩, ⟨false, 0, 0, 0, 0⟩⟩, 0,
        ⟨1022, 0x70, false, false⟩⟩]⟩,
        ⟨0x00 :: 0x70 :: 0x33 :: 0xFE :: List.replicate 1022 0xFF, 1026⟩) ∧
    (1022 : Nat) > 1021 :=
  ⟨rfl, by norm_num⟩

/-- Witness for C7: the amended theorem applied to header bytes declaring
section length 1022. -/
theorem claim_C7_section_length_unchecked_witness :
    parsePSISectionHeader ⟨[0x70, 0x33, 0xFE], 0⟩ =
      .ok (⟨((0x33 <<< 8) ||| 0xFE) &&& 0xfff, 0x70,
        ((0x33 <<< 8) ||| 0xFE) &&& 0x8000 != 0,
        ((0x33 <<< 8) ||| 0xFE) &&& 0x4000 != 0⟩, 0, 3,
        (if hasCRC32 0x70 then 3 + ((((0x33 : Nat) <<< 8) ||| 0xFE) &&& 0xfff) - 4
         else 3 + ((((0x33 : Nat) <<< 8) ||| 0xFE) &&& 0xfff)),
        3 + ((((0x33 : Nat) <<< 8) ||| 0xFE) &&& 0xfff), ⟨[0x70, 0x33, 0xFE], 3⟩) :=
  claim_C7_section_length_unchecked 0x70 0x33 0xFE [] (by decide)

/-- C8: for a section whose table id carries a CRC32, once the header and
syntax part parse, parsePSISection computes the CRC32 over the bytes from
the section start up to but excluding the trailing 4 CRC bytes and
returns an error exactly when the computed value differs from the stored
trailing 32-bit value. -/
theorem claim_C8_crc32_check (dataP : SyntaxDataParser) (i0 i1 i2 : BytesIterator)
    (h : PSISectionHeader) (oStart oSecStart oSecEnd oEnd : Nat)
    (syn : PSISectionSyntaxRec) (stored : Nat)
    (hhdr : parsePSISectionHeader i0 = .ok (h, oStart, oSecStart, oSecEnd, oEnd, i1))
    (hstop : shouldStopPSIParsing h.TableID = false)
    (hlen : 0 < h.SectionLength)
    (hcrc : hasCRC32 h.TableID = true)
    (hsyn : parsePSISectionSyntaxRecFn dataP i1 h oSecEnd = .ok (syn, i2))
    (hbs2 : i2.bs = i0.bs)
    (hstored : parseCRC32 ⟨i0.bs, oSecEnd⟩ = .ok (stored, ⟨i0.bs, oSecEnd + 4⟩))
    (hle : oStart ≤ oSecEnd) (hbound : oSecEnd ≤ i0.bs.length) :
    (computeCRC32 ((i0.bs.drop oStart).take (oSecEnd - oStart)) ≠ stored →
      parsePSISection dataP i0 =
        .error (.crcMismatch stored
          (computeCRC32 ((i0.bs.drop oStart).take (oSecEnd - oStart))))) ∧
    (computeCRC32 ((i0.bs.drop oStart).take (oSecEnd - oStart)) = stored →
      parsePSISection dataP i0 = .ok (⟨some syn, stored, h⟩, false, ⟨i0.bs, oEnd⟩)) := by
  have hmain : parsePSISection dataP i0 =
      (if computeCRC32 ((i0.bs.drop oStart).take (oSecEnd - oStart)) ≠ stored then
        .error (.crcMismatch stored
          (computeCRC32 ((i0.bs.drop oStart).take (oSecEnd - oStart))))
      else .ok (⟨some syn, stored, h⟩, false, ⟨i0.bs, oEnd⟩)) := by
    unfold parsePSISection
    rw [hhdr]
    simp only [Bind.bind, Except.bind]
    rw [hstop]
    simp only [Bool.false_eq_true, if_false]
    rw [if_pos hlen, hsyn]
    simp only [Except.bind, BytesIterator.seek, hbs2, hcrc, if_true]
    rw [hstored]
    simp only [Except.bind, BytesIterator.seek]
    rw [nextBytesNoCopy_ok i0.bs oStart (oSecEnd - oStart) (by omega)]
    by_cases hne : computeCRC32 ((i0.bs.drop oStart).take (oSecEnd - oStart)) ≠ stored
    · simp [hne, pure, Except.pure]
    · simp [hne, pure, Except.pure]
  constructor
  · intro hne
    rw [hmain, if_pos hne]
  · intro heq
    rw [hmain, if_neg (by simp [heq])]

set_option maxRecDepth 8000 in
/-- Witness for C8: a 12-byte PAT section whose stored trailing CRC32 is
zero while the computed one is not; parsePSISection fails. -/
theorem claim_C8_crc32_check_witness :
    parsePSISection syntaxDataNoBody
        ⟨[0x00, 0xB0, 0x09, 0x00, 0x01, 0xC1, 0x00, 0x00, 0x00, 0x00, 0x00, 0x00], 0⟩ =
      .error (.crcMismatch 0 (computeCRC32
        ((([0x00, 0xB0, 0x09, 0x00, 0x01, 0xC1, 0x00, 0x00, 0x00, 0x00, 0x00,
          0x00] : List Nat).drop 0).take (8 - 0)))) :=
  (claim_C8_crc32_check syntaxDataNoBody
    ⟨[0x00, 0xB0, 0x09, 0x00, 0x01, 0xC1, 0x00, 0x00, 0x00, 0x00, 0x00, 0x00], 0⟩
    ⟨[0x00, 0xB0, 0x09, 0x00, 0x01, 0xC1, 0x00, 0x00, 0x00, 0x00, 0x00, 0x00], 3⟩
    ⟨[0x00, 0xB0, 0x09, 0x00, 0x01, 0xC1, 0x00, 0x00, 0x00, 0x00, 0x00, 0x00], 8⟩
    ⟨9, 0, true, false⟩ 0 3 8 12
    ⟨some ⟨none, none, none, none, none, none⟩, ⟨true, 0, 0, 0, 1⟩⟩ 0
    rfl rfl (by norm_num) rfl rfl rfl rfl (by norm_num) (by norm_num)).1
    (by decide)

/-- C5: for a PES payload unit split across the packets of one PID,
parseData concatenates the held packets' payload slices in list order
into one buffer, parses the PES from that buffer, and emits exactly one
record carrying the parsed PES, the head packet's PID and adaptation
field, and the buffer as its internal data. -/
theorem claim_C5_pes_concat (dataP : SyntaxDataParser) (pl : List Packet)
    (pm : ProgramMapT) (pes : PESData) (it : BytesIterator)
    (hpid : (pl.headD emptyPacket).Header.PID ≠ PIDCAT)
    (hnotpsi : isPSIPayload (pl.headD emptyPacket).Header.PID pm = false)
    (hpes : isPESPayload ((pl.map Packet.Payload).flatten) = true)
    (hparse : parsePESData ⟨(pl.map Packet.Payload).flatten, 0⟩ = .ok (pes, it)) :
    parseData dataP pl none pm =
      .ok [{ emptyDemuxerData with
        AdaptationField := (pl.headD emptyPacket).AdaptationField,
        PES := some pes,
        PID := (pl.headD emptyPacket).Header.PID,
        internalData := some ((pl.map Packet.Payload).flatten) }] := by
  have h1 : ((pl.headD emptyPacket).Header.PID == PIDCAT) = false :=
    beq_eq_false_iff_ne.mpr hpid
  unfold parseData
  simp only [h1, Bool.false_eq_true, if_false, hnotpsi, hpes, if_true]
  rw [hparse]

/-- Witness for C5: a PES unit split across two packets; the record's
internal buffer is the concatenation and its PES data are the six payload
bytes after the 9-byte PES header. -/
theorem claim_C5_pes_concat_witness :
    parseData syntaxDataNoBody
        [⟨⟨0, false, true, true, 256, false, false, 0⟩, none,
          [0x00, 0x00, 0x01, 0xE0, 0x00, 0x00, 0x80, 0x00, 0x00, 1, 2, 3]⟩,
         ⟨⟨1, false, true, false, 256, false, false, 0⟩, none, [4, 5, 6]⟩] none [] =
      .ok [{ emptyDemuxerData with
        AdaptationField := none,
        PES := some ⟨[1, 2, 3, 4, 5, 6],
          ⟨some ⟨none, none, 0, 0, 0, 0, 0, 0, false, false, false, false, false,
            false, false, 0, false, false, 2, false, 0, 0⟩, 0, 0xE0⟩⟩,
        PID := 256,
        internalData := some [0x00, 0x00, 0x01, 0xE0, 0x00, 0x00, 0x80, 0x00, 0x00,
          1, 2, 3, 4, 5, 6] }] := by
  have h := claim_C5_pes_concat syntaxDataNoBody
    [⟨⟨0, false, true, true, 256, false, false, 0⟩, none,
      [0x00, 0x00, 0x01, 0xE0, 0x00, 0x00, 0x80, 0x00, 0x00, 1, 2, 3]⟩,
     ⟨⟨1, false, true, false, 256, false, false, 0⟩, none, [4, 5, 6]⟩] []
    ⟨[1, 2, 3, 4, 5, 6],
      ⟨some ⟨none, none, 0, 0, 0, 0, 0, 0, false, false, false, false, false,
        false, false, 0, false, false, 2, false, 0, 0⟩, 0, 0xE0⟩⟩
    ⟨[0x00, 0x00, 0x01, 0xE0, 0x00, 0x00, 0x80, 0x00, 0x00, 1, 2, 3, 4, 5, 6], 15⟩
    (by decide) (by decide) (by decide) (by rfl)
  exact h

end Astits
